import Mathlib

/-!
Verification of the FDS fall-detection pipeline against its specification.

Each component is shallowly embedded from the Python source:
* `src/analysis/delay_confirm.py`  — delay-confirm state machine
* `src/events/observer.py`         — `FallEvent` and the observer protocol
* `src/capture/rolling_buffer.py`  — frame ring buffer
* `src/analysis/smoothing/one_euro_filter.py` — One-Euro filter
* `src/analysis/pose_rule_engine.py` + `src/detection/skeleton.py` — pose rule
* `src/lifecycle/schema/validator.py` — skeleton-sequence validator semantics
* `src/events/event_logger.py`     — event store operations
* `src/lifecycle/cloud_sync.py`    — uploader with retry
* `src/lifecycle/clip_cleanup.py`  — retention sweep

Machine floats are modelled as `ℚ` where only ordering/affine arithmetic
matters and as `ℝ` where transcendental functions occur (`atan2`, `π`).
-/

namespace FDS

/-- Truncation toward zero, the semantics of Python `int(x)` on a number. -/
def ratTrunc (q : ℚ) : ℤ := if 0 ≤ q then ⌊q⌋ else ⌈q⌉

/-! ## `src/events/observer.py` — FallEvent -/

/-- `FallEvent` dataclass from `src/events/observer.py`. -/
structure FallEvent where
  eventId : String
  confirmedAt : ℚ
  lastNotifiedAt : ℚ
  notificationCount : ℕ
deriving DecidableEq, Repr

/-! ## `src/analysis/delay_confirm.py` — delay-confirm state machine -/

/-- `FallState` enum. -/
inductive FallState where
  | normal
  | suspected
  | confirmed
deriving DecidableEq, Repr

/-- Constructor parameters of `DelayConfirm`. -/
structure DCConfig where
  delaySec : ℚ
  sameEventWindow : ℚ
  reNotifyInterval : ℚ
deriving DecidableEq, Repr

/-- Mutable fields of `DelayConfirm` (the observer list is modelled
separately, emissions are returned as an output list). -/
structure DCState where
  state : FallState
  suspectedSince : Option ℚ
  currentEvent : Option FallEvent
deriving DecidableEq, Repr

/-- An observer call made during one `update`: either
`on_fall_confirmed event` or `on_fall_recovered event`. -/
inductive Emission where
  | confirmed (ev : FallEvent)
  | recovered (ev : FallEvent)
deriving DecidableEq, Repr

/-- Initial state set in `DelayConfirm.__init__`. -/
def DCState.init : DCState :=
  { state := .normal, suspectedSince := none, currentEvent := none }

/-- `DelayConfirm._confirm_fall`.  If a current event exists and the new
confirmation falls inside `same_event_window` of its `confirmed_at`, only
the state is set to CONFIRMED; otherwise a fresh `FallEvent` is created
(id `evt_<int(current_time)>`, count 1) and emitted to all observers. -/
def confirmFall (cfg : DCConfig) (s : DCState) (now : ℚ) : DCState × List Emission :=
  match s.currentEvent with
  | some ev =>
    if now - ev.confirmedAt < cfg.sameEventWindow then
      ({ s with state := .confirmed }, [])
    else
      let ev' : FallEvent :=
        { eventId := "evt_" ++ toString (ratTrunc now)
          confirmedAt := now
          lastNotifiedAt := now
          notificationCount := 1 }
      ({ s with state := .confirmed, currentEvent := some ev' }, [.confirmed ev'])
  | none =>
    let ev' : FallEvent :=
      { eventId := "evt_" ++ toString (ratTrunc now)
        confirmedAt := now
        lastNotifiedAt := now
        notificationCount := 1 }
    ({ s with state := .confirmed, currentEvent := some ev' }, [.confirmed ev'])

/-- The in-place mutation done by `_check_re_notify` before re-emitting:
`last_notified_at = now`, `notification_count += 1`. -/
def bumpEvent (ev : FallEvent) (now : ℚ) : FallEvent :=
  { ev with lastNotifiedAt := now, notificationCount := ev.notificationCount + 1 }

/-- `DelayConfirm._check_re_notify`: if a current event exists and
`now - last_notified_at ≥ re_notify_interval`, bump the event in place
(count + 1, `last_notified_at := now`) and re-emit it. -/
def checkReNotify (cfg : DCConfig) (s : DCState) (now : ℚ) : DCState × List Emission :=
  match s.currentEvent with
  | none => (s, [])
  | some ev =>
    if now - ev.lastNotifiedAt ≥ cfg.reNotifyInterval then
      ({ s with currentEvent := some (bumpEvent ev now) }, [.confirmed (bumpEvent ev now)])
    else
      (s, [])

/-- `DelayConfirm._recover`: go back to NORMAL, emit `on_fall_recovered`
for the current event if any; `current_event` itself is kept. -/
def recover (s : DCState) : DCState × List Emission :=
  match s.currentEvent with
  | some ev => ({ s with state := .normal, suspectedSince := none }, [.recovered ev])
  | none => ({ s with state := .normal, suspectedSince := none }, [])

/-- `DelayConfirm._reset`. -/
def dcReset (s : DCState) : DCState × List Emission :=
  ({ s with state := .normal, suspectedSince := none }, [])

/-- `DelayConfirm.update(is_fallen, current_time)`.  Returns `none` when the
Python code would raise (subtracting from a `None` `suspected_since`),
which cannot happen on reachable states. -/
def update (cfg : DCConfig) (s : DCState) (isFallen : Bool) (now : ℚ) :
    Option (DCState × List Emission) :=
  match s.state with
  | .normal =>
    if isFallen then
      some ({ s with state := .suspected, suspectedSince := some now }, [])
    else
      some (s, [])
  | .suspected =>
    if isFallen then
      match s.suspectedSince with
      | none => none
      | some since =>
        if now - since ≥ cfg.delaySec then some (confirmFall cfg s now)
        else some (s, [])
    else
      some (dcReset s)
  | .confirmed =>
    if isFallen then some (checkReNotify cfg s now)
    else some (recover s)

/-! ### C1 — dedup within `same_event_window` -/

/-- C1.  Deduplication within the same-event window: from any state about to
confirm (SUSPECTED, fallen, dwell ≥ `delay_sec`) whose current event was
confirmed at `T` with `now − T < same_event_window`, `update` emits nothing,
creates no new `FallEvent` (the current event is unchanged), and merely sets
the state to CONFIRMED.  The state `s` is arbitrary, so this holds after any
intermediate oscillation through NORMAL and SUSPECTED. -/
theorem C1_dedup_within_window (cfg : DCConfig) (s : DCState) (now since : ℚ)
    (ev : FallEvent)
    (hst : s.state = .suspected)
    (hsince : s.suspectedSince = some since)
    (hev : s.currentEvent = some ev)
    (hdelay : now - since ≥ cfg.delaySec)
    (hwin : now - ev.confirmedAt < cfg.sameEventWindow) :
    update cfg s true now = some ({ s with state := .confirmed }, []) := by
  simp only [update, hst, hsince, hdelay, if_pos, if_true]
  simp only [confirmFall, hev, if_pos hwin, hsince]

/-- Witness for C1 at a concrete run state. -/
theorem C1_dedup_within_window_witness :
    update ⟨3, 60, 120⟩
      ⟨.suspected, some 10, some ⟨"evt_0", 0, 0, 1⟩⟩ true 13 =
      some (⟨.confirmed, some 10, some ⟨"evt_0", 0, 0, 1⟩⟩, []) := by
  have h := C1_dedup_within_window ⟨3, 60, 120⟩
    ⟨.suspected, some 10, some ⟨"evt_0", 0, 0, 1⟩⟩ 13 10 ⟨"evt_0", 0, 0, 1⟩
    rfl rfl rfl (by norm_num) (by norm_num)
  exact h

/-! ### C7 — re-notify cadence -/

/-- C7.  Re-notify cadence: while CONFIRMED with `is_fallen = true`, no
`on_fall_confirmed` emission happens while
`now − last_notified_at < re_notify_interval` (state and event unchanged);
once the interval has elapsed, exactly one emission occurs, carrying the same
event with `notification_count` incremented by exactly 1 and
`last_notified_at` set to `now`. -/
theorem C7_re_notify_cadence (cfg : DCConfig) (s : DCState) (ev : FallEvent) (now : ℚ)
    (hst : s.state = .confirmed)
    (hev : s.currentEvent = some ev) :
    (now - ev.lastNotifiedAt < cfg.reNotifyInterval →
      update cfg s true now = some (s, [])) ∧
    (now - ev.lastNotifiedAt ≥ cfg.reNotifyInterval →
      update cfg s true now =
        some ({ s with currentEvent := some (bumpEvent ev now) },
              [.confirmed (bumpEvent ev now)]) ∧
      (bumpEvent ev now).notificationCount = ev.notificationCount + 1 ∧
      (bumpEvent ev now).lastNotifiedAt = now) := by
  constructor
  · intro hlt
    simp only [update, hst, if_true, checkReNotify, hev]
    rw [if_neg (by exact not_le.mpr hlt)]
  · intro hge
    refine ⟨?_, rfl, rfl⟩
    simp only [update, hst, if_true, checkReNotify, hev]
    rw [if_pos hge]

/-- Witness for C7: a re-notification at `now = 125` with interval 120. -/
theorem C7_re_notify_cadence_witness :
    update ⟨3, 60, 120⟩
      ⟨.confirmed, none, some ⟨"evt_4", 4, 4, 1⟩⟩ true 125 =
      some (⟨.confirmed, none, some ⟨"evt_4", 4, 125, 2⟩⟩,
            [.confirmed ⟨"evt_4", 4, 125, 2⟩]) := by
  have h := ((C7_re_notify_cadence ⟨3, 60, 120⟩
    ⟨.confirmed, none, some ⟨"evt_4", 4, 4, 1⟩⟩ ⟨"evt_4", 4, 4, 1⟩ 125
    rfl rfl).2 (by norm_num)).1
  exact h.trans (by rfl)

/-! ## Observer fan-out (`delay_confirm.py` lines 70-71, 79-80, 84-86)

A registered observer implements `on_fall_confirmed` / `on_fall_recovered`
(`FallEventObserver` protocol).  A call either returns normally (`.ok`) or
raises an exception, modelled as `.error msg`.  The source loops are plain
`for observer in self.observers: observer.on_…(event)` with no `try`, so the
Lean loop stops at the first error and propagates it. -/

/-- One registered observer (the two `FallEventObserver` protocol methods). -/
structure Obs where
  onFallConfirmed : FallEvent → Except String Unit
  onFallRecovered : FallEvent → Except String Unit

/-- The bare `for observer in self.observers` loop of `DelayConfirm`:
invokes `call` on each observer in registration order; the first raised
exception aborts the loop (the remaining observers are not invoked) and
propagates.  Returns the observers actually invoked, in order, and the
propagated exception if any. -/
def notifyLoop (call : Obs → FallEvent → Except String Unit) :
    List Obs → FallEvent → List Obs × Option String
  | [], _ => ([], none)
  | o :: rest, ev =>
    match call o ev with
    | .error e => ([o], some e)
    | .ok _ =>
      let r := notifyLoop call rest ev
      (o :: r.1, r.2)

/-- Dispatch of one `Emission` to the observer list, as done inside
`_confirm_fall` (on_fall_confirmed) and `_recover` (on_fall_recovered). -/
def notifyEmission (obs : List Obs) : Emission → List Obs × Option String
  | .confirmed ev => notifyLoop (fun o => o.onFallConfirmed) obs ev
  | .recovered ev => notifyLoop (fun o => o.onFallRecovered) obs ev

/-! ### C2 — observer error isolation (fails on the code) -/

/-- An observer whose `on_fall_confirmed` raises. -/
def obsRaising : Obs :=
  { onFallConfirmed := fun _ => .error "boom"
    onFallRecovered := fun _ => .ok () }

/-- An observer that always succeeds. -/
def obsQuiet : Obs :=
  { onFallConfirmed := fun _ => .ok ()
    onFallRecovered := fun _ => .ok () }

/-- Counterexample to C2.  With two registered observers whose first raises
on `on_fall_confirmed`, the emission loop invokes only the first observer
(the second is never called) and the exception propagates out of the loop —
and hence out of `update` — instead of being captured and logged. -/
theorem C2_observer_isolation_cex :
    notifyEmission [obsRaising, obsQuiet] (.confirmed ⟨"evt_0", 0, 0, 1⟩) =
      ([obsRaising], some "boom") ∧
    ([obsRaising] : List Obs).length ≠ ([obsRaising, obsQuiet] : List Obs).length := by
  exact ⟨rfl, by simp⟩

/-- C2 amended.  Observers are invoked synchronously in registration order,
but there is no per-observer error capture: if every observer returns
normally, all of them are invoked in registration order and no exception
escapes; if the observers are `pre ++ bad :: post` where every observer in
`pre` succeeds and `bad` raises `e`, then exactly `pre ++ [bad]` are invoked
(in order), `post` is skipped, and `e` propagates out of the update. -/
theorem C2_observer_order_and_propagation
    (call : Obs → FallEvent → Except String Unit) (obs : List Obs) (ev : FallEvent) :
    ((∀ o ∈ obs, call o ev = .ok ()) → notifyLoop call obs ev = (obs, none)) ∧
    (∀ pre bad post e, obs = pre ++ bad :: post →
      (∀ o ∈ pre, call o ev = .ok ()) → call bad ev = .error e →
      notifyLoop call obs ev = (pre ++ [bad], some e)) := by
  constructor
  · intro hall
    induction obs with
    | nil => rfl
    | cons o rest ih =>
      have ho := hall o (by simp)
      have hrest := ih (fun o' ho' => hall o' (by simp [ho']))
      simp [notifyLoop, ho, hrest]
  · intro pre bad post e horg hpre hbad
    subst horg
    induction pre with
    | nil => simp [notifyLoop, hbad]
    | cons o rest ih =>
      have ho := hpre o (by simp)
      have hrest := ih (fun o' ho' => hpre o' (by simp [ho']))
      simp [notifyLoop, ho, hrest]

/-- Witness for C2 amended: two quiet observers are both invoked in order;
and with a raising first observer the loop stops after it. -/
theorem C2_observer_order_and_propagation_witness :
    notifyLoop (fun o => o.onFallConfirmed) [obsQuiet, obsQuiet] ⟨"evt_0", 0, 0, 1⟩ =
      ([obsQuiet, obsQuiet], none) := by
  exact (C2_observer_order_and_propagation (fun o => o.onFallConfirmed)
    [obsQuiet, obsQuiet] ⟨"evt_0", 0, 0, 1⟩).1 (by intro o ho; fin_cases ho <;> rfl)

/-! ## `src/capture/rolling_buffer.py` — frame ring buffer -/

/-- `FrameData` dataclass; the image (`np.ndarray`) is opaque to every claim
and is carried as an uninterpreted payload. -/
structure FrameData where
  timestamp : ℚ
  payload : ℕ
  bbox : Option (ℤ × ℤ × ℤ × ℤ)
deriving DecidableEq, Repr

/-- `RollingBuffer` state: the capacity `max_frames` (the `deque` `maxlen`)
and the buffered frames, oldest first. -/
structure RollingBuffer where
  maxFrames : ℕ
  buffer : List FrameData
deriving DecidableEq, Repr

/-- `RollingBuffer.__init__`: `max_frames = int(buffer_seconds * fps)`. -/
def mkRollingBuffer (bufferSeconds fps : ℚ) : RollingBuffer :=
  { maxFrames := (ratTrunc (bufferSeconds * fps)).toNat, buffer := [] }

/-- `RollingBuffer.push`: `deque.append` with `maxlen = max_frames` — append
the new frame, discarding from the left when the deque is at capacity. -/
def RollingBuffer.push (b : RollingBuffer) (f : FrameData) : RollingBuffer :=
  { b with buffer := (b.buffer ++ [f]).drop ((b.buffer.length + 1) - b.maxFrames) }

/-- `RollingBuffer.get_clip`: frames whose timestamps lie in
`[event_time - before_sec, event_time + after_sec]`, in buffer order. -/
def RollingBuffer.getClip (b : RollingBuffer) (eventTime beforeSec afterSec : ℚ) :
    List FrameData :=
  b.buffer.filter (fun f =>
    decide (eventTime - beforeSec ≤ f.timestamp) && decide (f.timestamp ≤ eventTime + afterSec))

/-- A single push preserves the capacity bound. -/
theorem RollingBuffer.push_length_le (b : RollingBuffer) (f : FrameData)
    (h : b.buffer.length ≤ b.maxFrames) :
    (b.push f).buffer.length ≤ b.maxFrames := by
  simp only [RollingBuffer.push, List.length_drop, List.length_append, List.length_cons,
    List.length_nil]
  omega

/-! ### C9 — ring-buffer capacity invariant -/

/-- C9.  Capacity invariant: for a buffer constructed from nonnegative
`buffer_seconds` and `fps`, after any finite sequence of pushes the length is
at most `⌊buffer_seconds * fps⌋`; and a push onto a full buffer of positive
capacity drops exactly the oldest frame while appending the new one. -/
theorem C9_buffer_capacity (bufferSeconds fps : ℚ)
    (hbs : 0 ≤ bufferSeconds) (hfps : 0 ≤ fps) :
    (∀ pushes : List FrameData,
      ((pushes.foldl RollingBuffer.push (mkRollingBuffer bufferSeconds fps)).buffer.length : ℤ)
        ≤ ⌊bufferSeconds * fps⌋) ∧
    (∀ (b : RollingBuffer) (f : FrameData), 0 < b.maxFrames →
      b.buffer.length = b.maxFrames →
      (b.push f).buffer = b.buffer.tail ++ [f]) := by
  constructor
  · intro pushes
    have hnn : 0 ≤ bufferSeconds * fps := mul_nonneg hbs hfps
    have hcap : ((mkRollingBuffer bufferSeconds fps).maxFrames : ℤ) = ⌊bufferSeconds * fps⌋ := by
      simp only [mkRollingBuffer, ratTrunc, if_pos hnn]
      exact Int.toNat_of_nonneg (Int.floor_nonneg.mpr hnn)
    rw [← hcap]
    have key : ∀ (l : List FrameData) (b : RollingBuffer),
        b.buffer.length ≤ b.maxFrames →
        (l.foldl RollingBuffer.push b).buffer.length ≤ b.maxFrames := by
      intro l
      induction l with
      | nil => intro b hb; exact hb
      | cons f rest ih =>
        intro b hb
        have h1 : (b.push f).buffer.length ≤ b.maxFrames :=
          RollingBuffer.push_length_le b f hb
        have hmax : (b.push f).maxFrames = b.maxFrames := rfl
        have := ih (b.push f) (by rw [hmax]; exact h1)
        simpa [hmax] using this
    have := key pushes (mkRollingBuffer bufferSeconds fps) (by simp [mkRollingBuffer])
    exact_mod_cast this
  · intro b f hpos hfull
    have hdrop : (b.buffer.length + 1) - b.maxFrames = 1 := by omega
    simp only [RollingBuffer.push, hdrop]
    cases hb : b.buffer with
    | nil => rw [hb] at hfull; simp at hfull; omega
    | cons x xs => simp

/-- Witness for C9 at capacity 2 (`buffer_seconds = 1, fps = 2`). -/
theorem C9_buffer_capacity_witness :
    (0:ℚ) ≤ 1 ∧ (0:ℚ) ≤ 2 ∧
    (([⟨0, 0, none⟩, ⟨1, 1, none⟩, ⟨2, 2, none⟩] :
        List FrameData).foldl RollingBuffer.push (mkRollingBuffer 1 2)).buffer.length ≤ 2 := by
  refine ⟨by norm_num, by norm_num, ?_⟩
  have h := ((C9_buffer_capacity 1 2 (by norm_num) (by norm_num)).1
    [⟨0, 0, none⟩, ⟨1, 1, none⟩, ⟨2, 2, none⟩])
  have hfl : (⌊(1 : ℚ) * 2⌋ : ℤ) = 2 := by norm_num
  omega

/-! ## `src/events/event_logger.py` — event store

The `events` table (`_create_tables`): column defaults are
`notification_count DEFAULT 1`, `skeleton_upload_status DEFAULT 'pending'`,
and NULL for `recovered_at`, `clip_path`, `skeleton_cloud_path`,
`skeleton_upload_error`.  The table is modelled as a list of rows. -/

/-- One row of the `events` table. -/
structure EventRow where
  eventId : String
  confirmedAt : ℚ
  recoveredAt : Option ℚ
  notificationCount : ℕ
  clipPath : Option String
  skeletonCloudPath : Option String
  skeletonUploadStatus : String
  skeletonUploadError : Option String
  createdAt : ℚ
deriving DecidableEq, Repr

/-- The row inserted by `EventLogger.on_fall_confirmed`: the INSERT supplies
only `event_id, confirmed_at, notification_count, created_at`
(with `created_at = time.time()`); every other column takes its declared
default (`'pending'` status, NULL elsewhere). -/
def rowOfEvent (ev : FallEvent) (now : ℚ) : EventRow :=
  { eventId := ev.eventId
    confirmedAt := ev.confirmedAt
    recoveredAt := none
    notificationCount := ev.notificationCount
    clipPath := none
    skeletonCloudPath := none
    skeletonUploadStatus := "pending"
    skeletonUploadError := none
    createdAt := now }

/-- `EventLogger.on_fall_confirmed`: SQLite `INSERT OR REPLACE` — delete any
row with the same primary key, then insert the new row. -/
def onFallConfirmedDb (db : List EventRow) (ev : FallEvent) (now : ℚ) : List EventRow :=
  (db.filter (fun r => r.eventId != ev.eventId)) ++ [rowOfEvent ev now]

/-- `EventLogger.on_fall_recovered`: UPDATE `recovered_at` on the row. -/
def onFallRecoveredDb (db : List EventRow) (ev : FallEvent) (now : ℚ) : List EventRow :=
  db.map (fun r => if r.eventId = ev.eventId then { r with recoveredAt := some now } else r)

/-! ### C10 — re-notification upsert wipes artifact columns -/

/-- C10.  `on_fall_confirmed` for an `event_id` already stored replaces the
row wholesale: afterwards the unique row with that id has `clip_path`,
`skeleton_cloud_path`, `skeleton_upload_error` NULL, status back to
`"pending"`, `recovered_at` NULL, and `created_at` overwritten with the call
time; none of the old row's artifact fields survive. -/
theorem C10_upsert_resets_row (db : List EventRow) (ev : FallEvent) (now : ℚ)
    (r : EventRow) (hr : r ∈ db) (hid : r.eventId = ev.eventId) :
    (∀ r' ∈ onFallConfirmedDb db ev now, r'.eventId = ev.eventId →
        r' = rowOfEvent ev now) ∧
    rowOfEvent ev now ∈ onFallConfirmedDb db ev now ∧
    (rowOfEvent ev now).clipPath = none ∧
    (rowOfEvent ev now).skeletonCloudPath = none ∧
    (rowOfEvent ev now).skeletonUploadError = none ∧
    (rowOfEvent ev now).skeletonUploadStatus = "pending" ∧
    (rowOfEvent ev now).recoveredAt = none ∧
    (rowOfEvent ev now).createdAt = now := by
  refine ⟨?_, ?_, rfl, rfl, rfl, rfl, rfl, rfl⟩
  · intro r' hr' hid'
    rcases List.mem_append.mp hr' with hfil | hnew
    · exfalso
      have := List.of_mem_filter hfil
      simp only [bne_iff_ne, ne_eq] at this
      exact this hid'
    · simpa using hnew
  · exact List.mem_append.mpr (Or.inr (by simp))

/-- Witness for C10: a stored row with artifact fields set is wiped by a
re-notification upsert for the same event id. -/
theorem C10_upsert_resets_row_witness :
    onFallConfirmedDb
        [⟨"evt_1", 1, some 2, 1, some "c.mp4", some "p.json", "uploaded", some "err", 1⟩]
        ⟨"evt_1", 1, 9, 2⟩ 99 = [rowOfEvent ⟨"evt_1", 1, 9, 2⟩ 99] ∧
    (rowOfEvent ⟨"evt_1", 1, 9, 2⟩ 99).clipPath = none ∧
    (rowOfEvent ⟨"evt_1", 1, 9, 2⟩ 99).skeletonUploadStatus = "pending" ∧
    (rowOfEvent ⟨"evt_1", 1, 9, 2⟩ 99).createdAt = 99 := by
  have h := C10_upsert_resets_row
    [⟨"evt_1", 1, some 2, 1, some "c.mp4", some "p.json", "uploaded", some "err", 1⟩]
    ⟨"evt_1", 1, 9, 2⟩ 99
    ⟨"evt_1", 1, some 2, 1, some "c.mp4", some "p.json", "uploaded", some "err", 1⟩
    (by simp) rfl
  exact ⟨by decide, h.2.2.1, h.2.2.2.2.2.1, h.2.2.2.2.2.2.2⟩

/-! ## `src/analysis/smoothing/one_euro_filter.py` — One-Euro filter

Values and timestamps are modelled as `ℝ` (the full path divides by the
sampling period and uses `π`). -/

/-- `LowPassFilter` state (`_alpha`, `_initialized`, `_raw_value`,
`_stored_value`); the `_initialized` flag is named `inited` here. -/
structure LowPassFilter where
  alpha : ℝ
  inited : Bool
  rawValue : ℝ
  storedValue : ℝ

/-- `LowPassFilter.__init__` with the default `alpha = 1.0`. -/
noncomputable def LowPassFilter.mk0 : LowPassFilter :=
  { alpha := 1, inited := false, rawValue := 0, storedValue := 0 }

/-- `LowPassFilter.filter(value, alpha)`: optional alpha override, then
exponential smoothing once initialized, pass-through on the first sample.
Returns the output value and the updated filter state. -/
noncomputable def LowPassFilter.filter (f : LowPassFilter) (value : ℝ) (alphaArg : Option ℝ) :
    ℝ × LowPassFilter :=
  let a := match alphaArg with
    | some x => x
    | none => f.alpha
  let stored := if f.inited then a * value + (1 - a) * f.storedValue else value
  (stored, { alpha := a, inited := true, rawValue := value, storedValue := stored })

/-- `OneEuroFilter` state.  The constructor raises on nonpositive
`min_cutoff` / `d_cutoff`; no claim exercises that path. -/
structure OneEuroFilter where
  minCutoff : ℝ
  beta : ℝ
  dCutoff : ℝ
  xFilter : LowPassFilter
  dxFilter : LowPassFilter
  lastTimestamp : Option ℝ

/-- `OneEuroFilter.__init__` (after the positivity checks pass). -/
noncomputable def mkOneEuroFilter (minCutoff beta dCutoff : ℝ) : OneEuroFilter :=
  { minCutoff := minCutoff, beta := beta, dCutoff := dCutoff
    xFilter := .mk0, dxFilter := .mk0, lastTimestamp := none }

/-- `OneEuroFilter._smoothing_factor`. -/
noncomputable def smoothingFactor (te cutoff : ℝ) : ℝ :=
  1 / (1 + (1 / (2 * Real.pi * cutoff)) / te)

/-- `OneEuroFilter.filter(value, timestamp)`.  First sample passes through
with `alpha = 1.0`; a non-increasing timestamp hits the `te <= 0` branch,
which calls `self._x_filter.filter(value, 1.0)`; otherwise the adaptive
path runs.  Returns the output and the updated filter. -/
noncomputable def OneEuroFilter.filter (f : OneEuroFilter) (value timestamp : ℝ) :
    ℝ × OneEuroFilter :=
  match f.lastTimestamp with
  | none =>
    let d := f.dxFilter.filter 0 (some 1)
    let x := f.xFilter.filter value (some 1)
    (x.1, { f with lastTimestamp := some timestamp, dxFilter := d.2, xFilter := x.2 })
  | some last =>
    let te := timestamp - last
    if te ≤ 0 then
      let x := f.xFilter.filter value (some 1)
      (x.1, { f with xFilter := x.2 })
    else
      let dx := (value - f.xFilter.rawValue) / te
      let alphaD := smoothingFactor te f.dCutoff
      let d := f.dxFilter.filter dx (some alphaD)
      let cutoff := f.minCutoff + f.beta * |d.1|
      let a := smoothingFactor te cutoff
      let x := f.xFilter.filter value (some a)
      (x.1, { f with lastTimestamp := some timestamp, dxFilter := d.2, xFilter := x.2 })

/-! ### C4 — stale-timestamp behaviour (code bug)

The source comment on the `te <= 0` branch says "Same or earlier timestamp -
return last value", and the spec says the same, but the branch executes
`self._x_filter.filter(value, 1.0)`, i.e. alpha = 1, which returns — and
stores — the NEW input value. -/

/-- C4 (code bug exhibited).  After a first sample of 100 at t = 0, filtering
105 at the same timestamp returns 105, not the previously filtered value:
the stored value before the call is 100, the call returns the new input 105,
and it also overwrites the stored value with 105. -/
theorem C4_stale_timestamp_returns_new_value :
    (((mkOneEuroFilter 1 0.007 1).filter 100 0).2.xFilter.storedValue = 100) ∧
    ((((mkOneEuroFilter 1 0.007 1).filter 100 0).2.filter 105 0).1 = 105) ∧
    ((((mkOneEuroFilter 1 0.007 1).filter 100 0).2.filter 105 0).2.xFilter.storedValue = 105) ∧
    (105 : ℝ) ≠ 100 := by
  have h1 : ((mkOneEuroFilter 1 0.007 1).filter 100 0).2.xFilter.storedValue = 100 := by
    simp [mkOneEuroFilter, OneEuroFilter.filter, LowPassFilter.filter, LowPassFilter.mk0]
  refine ⟨h1, ?_, ?_, by norm_num⟩
  · simp [mkOneEuroFilter, OneEuroFilter.filter, LowPassFilter.filter, LowPassFilter.mk0]
  · simp [mkOneEuroFilter, OneEuroFilter.filter, LowPassFilter.filter, LowPassFilter.mk0]

/-! ## `src/lifecycle/schema/validator.py` — semantic validation

`SkeletonValidator.validate` first runs the Draft-7 JSON-Schema structural
check (the schema file is purely structural — JSON Schema cannot relate one
array element to another, so it cannot constrain frame ordering) and then
`_validate_semantics`, embedded here.  Only the fields the semantic checks
read are modelled; errors are structured rather than formatted strings. -/

/-- One entry of `sequence`: the fields `_validate_semantics` reads
(`frame_idx`, `timestamp`, `len(keypoints)`). -/
structure SkelFrame where
  frameIdx : ℤ
  timestamp : ℚ
  keypointCount : ℕ
deriving DecidableEq, Repr

/-- The document fields `_validate_semantics` reads.  `fallFrameIdx` is
`some (some i)` when a truthy `analysis` dict carries a non-null
`fall_frame_idx`, `some none` when `analysis` is truthy without it, and
`none` when `analysis` is absent or falsy. -/
structure SkelDoc where
  keypointFormat : String
  sequence : List SkelFrame
  totalFrames : ℕ
  fallFrameIdx : Option (Option ℤ)
deriving DecidableEq, Repr

/-- The distinct `ValidationError` cases raised by `_validate_semantics`
(`emptyMax` stands for the `ValueError` Python's `max()` raises on an empty
list in check 5). -/
inductive ValErr where
  | keypointCount (frameIdx : ℤ) (count expected : ℕ)
  | frameOrder (indices : List ℤ)
  | timestampOrder (timestamps : List ℚ)
  | tooLong (len total : ℕ)
  | fallIdxRange (fallIdx maxIdx : ℤ)
  | emptyMax
deriving DecidableEq, Repr

/-- `expected_count = 17 if keypoint_format == "coco17" else 33`. -/
def expectedCount (fmt : String) : ℕ := if fmt = "coco17" then 17 else 33

/-- Check 1: first frame whose keypoint count exceeds the format capacity. -/
def checkKeypointCounts (expected : ℕ) : List SkelFrame → Option ValErr
  | [] => none
  | f :: rest =>
    if f.keypointCount > expected then
      some (.keypointCount f.frameIdx f.keypointCount expected)
    else
      checkKeypointCounts expected rest

/-- `frame_indices == sorted(frame_indices)`: a list equals its stable sort
exactly when adjacent elements are non-decreasing. -/
def nonDecreasing : List ℤ → Bool
  | [] => true
  | [_] => true
  | a :: b :: rest => a ≤ b && nonDecreasing (b :: rest)

/-- Check 3's loop: `timestamps[i] < timestamps[i-1]` for no `i`. -/
def tsMonotone : List ℚ → Bool
  | [] => true
  | [_] => true
  | a :: b :: rest => ¬ (b < a) && tsMonotone (b :: rest)

/-- Python `max` over a list (None for the empty list, where Python raises). -/
def listMax : List ℤ → Option ℤ
  | [] => none
  | a :: rest =>
    match listMax rest with
    | none => some a
    | some m => some (max a m)

/-- `SkeletonValidator._validate_semantics`, checks in source order:
keypoint counts, frame-index ordering (`!= sorted`), timestamp monotonicity,
`len(sequence) ≤ total_frames`, and `fall_frame_idx ≤ max(frame_indices)`. -/
def validateSemantics (d : SkelDoc) : Except ValErr Unit :=
  match checkKeypointCounts (expectedCount d.keypointFormat) d.sequence with
  | some e => .error e
  | none =>
    let idxs := d.sequence.map (·.frameIdx)
    if nonDecreasing idxs = false then .error (.frameOrder idxs)
    else
      let tss := d.sequence.map (·.timestamp)
      if tsMonotone tss = false then .error (.timestampOrder tss)
      else if d.sequence.length > d.totalFrames then
        .error (.tooLong d.sequence.length d.totalFrames)
      else
        match d.fallFrameIdx with
        | some (some idx) =>
          match listMax idxs with
          | none => .error .emptyMax
          | some m => if idx > m then .error (.fallIdxRange idx m) else .ok ()
        | _ => .ok ()

/-! ### C6 — strictly-ascending frame indices (fails on the code) -/

/-- Counterexample to C6.  A document whose two frames share `frame_idx = 0`
passes `_validate_semantics` (and the structural JSON-Schema layer cannot
reject ordering), because `frame_indices != sorted(frame_indices)` only
detects strict descents — equal consecutive indices are accepted, while the
claim requires a `ValidationError`. -/
theorem C6_equal_frame_idx_accepted_cex :
    validateSemantics ⟨"coco17", [⟨0, 0, 1⟩, ⟨0, 0, 1⟩], 2, none⟩ = .ok () ∧
    (SkelDoc.sequence ⟨"coco17", [⟨0, 0, 1⟩, ⟨0, 0, 1⟩], 2, none⟩).map
        (·.frameIdx) = [0, 0] := by
  exact ⟨rfl, rfl⟩

/-- C6 amended.  The validator enforces NON-DECREASING frame indices: for a
document that passes the keypoint-count check, if its frame-index list
contains a strict descent (is not non-decreasing) then
`_validate_semantics` raises the frame-order `ValidationError`; equal
consecutive indices are accepted by the ordering check. -/
theorem C6_frame_order_nondecreasing (d : SkelDoc)
    (hc : checkKeypointCounts (expectedCount d.keypointFormat) d.sequence = none)
    (hbad : nonDecreasing (d.sequence.map (·.frameIdx)) = false) :
    validateSemantics d = .error (.frameOrder (d.sequence.map (·.frameIdx))) := by
  simp only [validateSemantics, hc, hbad, if_pos]

/-- Witness for C6 amended: a descending pair of frame indices is rejected. -/
theorem C6_frame_order_nondecreasing_witness :
    validateSemantics ⟨"coco17", [⟨1, 0, 1⟩, ⟨0, 1, 1⟩], 2, none⟩ =
      .error (.frameOrder [1, 0]) := by
  have h := C6_frame_order_nondecreasing ⟨"coco17", [⟨1, 0, 1⟩, ⟨0, 1, 1⟩], 2, none⟩
    rfl rfl
  exact h

/-! ## `src/lifecycle/cloud_sync.py` — `CloudStorageUploader.upload_skeleton`

The retry loop wraps only `blob.upload_from_filename` and catches exactly
`GoogleCloudError`.  An attempt outcome is therefore: success, a raised
`GoogleCloudError` (whose subclass may be an authentication error such as
`Unauthorized`/`Forbidden` — the flag records that, the `except` clause does
not inspect it), or some other exception, which escapes the loop entirely.
The GCS destination path (`_generate_cloud_path`, calendar arithmetic) is
irrelevant to every claim and is passed in as `cloudPath`. -/

/-- Outcome of one `blob.upload_from_filename` call. -/
inductive AttemptOutcome where
  | success
  | gcsError (isAuth : Bool) (msg : String)
  | otherError (msg : String)
deriving DecidableEq, Repr

/-- One `update_skeleton_upload(event_id, cloud_path, status, error)` call. -/
structure DbUpdate where
  eventId : String
  cloudPath : Option String
  status : String
  error : Option String
deriving DecidableEq, Repr

/-- How the `for attempt in range(retry_attempts)` loop ends. -/
inductive LoopResult where
  | succeeded
  | exhausted (lastErr : Option String)
  | raised (msg : String)
deriving DecidableEq, Repr

/-- The retry loop: `idx` is the current attempt number, `remaining` the
attempts left, `lastErr` the accumulated `last_error`.  Returns how the loop
ended, the number of upload attempts actually made, and the number of
`time.sleep(retry_delay)` calls (the code sleeps only when another attempt
follows). -/
def runAttempts (outcomes : ℕ → AttemptOutcome) :
    (idx remaining : ℕ) → Option String → LoopResult × ℕ × ℕ
  | _, 0, lastErr => (.exhausted lastErr, 0, 0)
  | idx, rem + 1, _ =>
    match outcomes idx with
    | .success => (.succeeded, 1, 0)
    | .gcsError _ msg =>
      if rem = 0 then
        (.exhausted (some msg), 1, 0)
      else
        let r := runAttempts outcomes (idx + 1) rem (some msg)
        (r.1, r.2.1 + 1, r.2.2 + 1)
    | .otherError msg => (.raised msg, 1, 0)

/-- Python `str(last_error)` when `last_error` may still be `None`. -/
def optErrStr : Option String → String
  | none => "None"
  | some m => m

/-- Observable result of one `upload_skeleton` call: the returned boolean
(`none` when an uncaught exception propagates), the event-store updates, the
number of upload attempts and of retry sleeps. -/
structure UploadResult where
  returned : Option Bool
  dbUpdates : List DbUpdate
  attempts : ℕ
  sleeps : ℕ
deriving DecidableEq, Repr

/-- `CloudStorageUploader.upload_skeleton(event_id, local_path, dry_run)`
with `retry_attempts = N`: missing file marks FAILED and returns before any
attempt; dry run prints and returns True; otherwise the retry loop runs and
the final failure persists
`"Upload failed after N attempts: <last_error>"`. -/
def uploadSkeleton (retryAttempts : ℕ) (eventId localPath cloudPath : String)
    (fileExists dryRun : Bool) (outcomes : ℕ → AttemptOutcome) : UploadResult :=
  if fileExists = false then
    { returned := some false
      dbUpdates := [⟨eventId, none, "failed",
        some ("Local file not found: " ++ localPath)⟩]
      attempts := 0
      sleeps := 0 }
  else if dryRun then
    { returned := some true, dbUpdates := [], attempts := 0, sleeps := 0 }
  else
    match runAttempts outcomes 0 retryAttempts none with
    | (.succeeded, a, sl) =>
      { returned := some true
        dbUpdates := [⟨eventId, some cloudPath, "uploaded", none⟩]
        attempts := a
        sleeps := sl }
    | (.exhausted lastErr, a, sl) =>
      { returned := some false
        dbUpdates := [⟨eventId, none, "failed",
          some ("Upload failed after " ++ toString retryAttempts ++ " attempts: " ++
            optErrStr lastErr)⟩]
        attempts := a
        sleeps := sl }
    | (.raised _, a, sl) =>
      { returned := none, dbUpdates := [], attempts := a, sleeps := sl }

/-- Replace every `GoogleCloudError` outcome by the same error with the
authentication flag cleared; the `except GoogleCloudError` clause cannot
distinguish the two. -/
def stripAuth : AttemptOutcome → AttemptOutcome
  | .gcsError _ m => .gcsError false m
  | o => o

/-- If every attempt in range raises a `GoogleCloudError`, the loop makes all
`remaining` attempts, sleeps between consecutive ones, and ends exhausted
with the last error message. -/
theorem runAttempts_all_gcs (outcomes : ℕ → AttemptOutcome)
    (flags : ℕ → Bool) (msgs : ℕ → String) :
    ∀ rem idx lastErr, 0 < rem →
      (∀ k, k < rem → outcomes (idx + k) = .gcsError (flags (idx + k)) (msgs (idx + k))) →
      runAttempts outcomes idx rem lastErr =
        (.exhausted (some (msgs (idx + rem - 1))), rem, rem - 1) := by
  intro rem
  induction rem with
  | zero => intro idx lastErr h; omega
  | succ rem ih =>
    intro idx lastErr _ hall
    have h0 := hall 0 (by omega)
    simp only [Nat.add_zero] at h0
    rcases Nat.eq_zero_or_pos rem with hz | hpos
    · subst hz
      simp [runAttempts, h0]
    · have hrest := ih (idx + 1) (some (msgs idx)) hpos
        (fun k hk => by
          have := hall (k + 1) (by omega)
          simpa [Nat.add_assoc, Nat.add_comm 1 k] using this)
      simp only [runAttempts, h0]
      rw [if_neg (by omega)]
      simp only [hrest]
      have e1 : idx + 1 + rem - 1 = idx + (rem + 1) - 1 := by omega
      have e2 : rem - 1 + 1 = rem + 1 - 1 := by omega
      rw [e1, e2]

/-- If the first `j` attempts raise `GoogleCloudError` and attempt `j`
succeeds (with `j` within range), the loop makes `j + 1` attempts with `j`
sleeps and ends succeeded. -/
theorem runAttempts_success_after (outcomes : ℕ → AttemptOutcome)
    (flags : ℕ → Bool) (msgs : ℕ → String) :
    ∀ j idx rem lastErr, j < rem →
      (∀ k, k < j → outcomes (idx + k) = .gcsError (flags (idx + k)) (msgs (idx + k))) →
      outcomes (idx + j) = .success →
      runAttempts outcomes idx rem lastErr = (.succeeded, j + 1, j) := by
  intro j
  induction j with
  | zero =>
    intro idx rem lastErr hlt _ hsucc
    simp only [Nat.add_zero] at hsucc
    obtain ⟨rem', rfl⟩ : ∃ r, rem = r + 1 := ⟨rem - 1, by omega⟩
    simp [runAttempts, hsucc]
  | succ j ih =>
    intro idx rem lastErr hlt hall hsucc
    have h0 := hall 0 (by omega)
    simp only [Nat.add_zero] at h0
    obtain ⟨rem', rfl⟩ : ∃ r, rem = r + 1 := ⟨rem - 1, by omega⟩
    have hrest := ih (idx + 1) rem' (some (msgs idx)) (by omega)
      (fun k hk => by
        have := hall (k + 1) (by omega)
        simpa [Nat.add_assoc, Nat.add_comm 1 k] using this)
      (by simpa [Nat.add_assoc, Nat.add_comm 1 j] using hsucc)
    simp only [runAttempts, h0]
    rw [if_neg (by omega)]
    simp [hrest]

/-- The loop's behaviour does not depend on the authentication flag of any
`GoogleCloudError`. -/
theorem runAttempts_stripAuth (outcomes : ℕ → AttemptOutcome) :
    ∀ rem idx lastErr,
      runAttempts (fun k => stripAuth (outcomes k)) idx rem lastErr =
        runAttempts outcomes idx rem lastErr := by
  intro rem
  induction rem with
  | zero => intro idx lastErr; rfl
  | succ rem ih =>
    intro idx lastErr
    cases h : outcomes idx with
    | success =>
      have h' : stripAuth (outcomes idx) = .success := by rw [h]; rfl
      simp only [runAttempts, h, h']
      rfl
    | gcsError f m =>
      have h' : stripAuth (outcomes idx) = .gcsError false m := by rw [h]; rfl
      simp only [runAttempts, h, h', ih]
      rfl
    | otherError m =>
      have h' : stripAuth (outcomes idx) = .otherError m := by rw [h]; rfl
      simp only [runAttempts, h, h']
      rfl

/-! ### C3 — upload failure classification (auth part fails on the code) -/

/-- Every attempt raises an authentication `GoogleCloudError`. -/
def authOutcomes : ℕ → AttemptOutcome := fun _ => .gcsError true "401 Unauthorized"

/-- Counterexample to C3.  With `retry_attempts = 3` and every attempt
failing with an authentication `GoogleCloudError` (e.g. `Unauthorized`, a
`GoogleCloudError` subclass), `upload_skeleton` makes 3 attempts and sleeps
twice before marking FAILED — the authentication failure IS retried, where
the claim requires one attempt and an immediate FAILED. -/
theorem C3_auth_is_retried_cex :
    (uploadSkeleton 3 "evt_1" "s.json" "2024/12/29/evt_1.json" true false
        authOutcomes).attempts = 3 ∧
    (uploadSkeleton 3 "evt_1" "s.json" "2024/12/29/evt_1.json" true false
        authOutcomes).sleeps = 2 ∧
    (uploadSkeleton 3 "evt_1" "s.json" "2024/12/29/evt_1.json" true false
        authOutcomes).dbUpdates =
      [⟨"evt_1", none, "failed",
        some "Upload failed after 3 attempts: 401 Unauthorized"⟩] ∧
    (3 : ℕ) ≠ 1 := by
  refine ⟨rfl, rfl, ?_, by omega⟩
  decide

/-- C3 amended.  (a) A missing local file marks the event FAILED with a
file-not-found reason and zero attempts.  (b-amended) There is no special
authentication handling: the result is unchanged when every
`GoogleCloudError`'s authentication flag is cleared — auth errors are
retried exactly like transport errors (non-`GoogleCloudError` exceptions
escape uncaught).  (c) When all `retry_attempts` attempts raise
`GoogleCloudError`, every attempt is made with a `retry_delay` sleep between
consecutive attempts, and the final FAILED update persists the last error
string; when attempt `j` succeeds after `j` such failures, exactly `j + 1`
attempts and `j` sleeps occur, ending UPLOADED. -/
theorem C3_upload_failure_classification (retryN : ℕ) (eid lp cp : String)
    (outcomes : ℕ → AttemptOutcome) (flags : ℕ → Bool) (msgs : ℕ → String) :
    (uploadSkeleton retryN eid lp cp false false outcomes =
      ⟨some false, [⟨eid, none, "failed", some ("Local file not found: " ++ lp)⟩],
       0, 0⟩) ∧
    (∀ fe dr : Bool,
      uploadSkeleton retryN eid lp cp fe dr (fun k => stripAuth (outcomes k)) =
        uploadSkeleton retryN eid lp cp fe dr outcomes) ∧
    (0 < retryN →
      (∀ k, k < retryN → outcomes k = .gcsError (flags k) (msgs k)) →
      uploadSkeleton retryN eid lp cp true false outcomes =
        ⟨some false,
         [⟨eid, none, "failed",
           some ("Upload failed after " ++ toString retryN ++ " attempts: " ++
             msgs (retryN - 1))⟩],
         retryN, retryN - 1⟩) ∧
    (∀ j, j < retryN →
      (∀ k, k < j → outcomes k = .gcsError (flags k) (msgs k)) →
      outcomes j = .success →
      uploadSkeleton retryN eid lp cp true false outcomes =
        ⟨some true, [⟨eid, some cp, "uploaded", none⟩], j + 1, j⟩) := by
  refine ⟨rfl, ?_, ?_, ?_⟩
  · intro fe dr
    simp only [uploadSkeleton, runAttempts_stripAuth]
  · intro hpos hall
    have h := runAttempts_all_gcs outcomes flags msgs retryN 0 none hpos
      (fun k hk => by simpa using hall k hk)
    simp only [uploadSkeleton, h]
    simp only [Nat.zero_add]
    rfl
  · intro j hj hall hsucc
    have h := runAttempts_success_after outcomes flags msgs j 0 retryN none hj
      (fun k hk => by simpa using hall k hk) (by simpa using hsucc)
    simp [uploadSkeleton, h]

/-- Witness for C3 amended: two transport failures then success gives three
attempts, two sleeps, and an UPLOADED row (spec scenario 5). -/
theorem C3_upload_failure_classification_witness :
    uploadSkeleton 3 "evt_1735459200" "s.json" "2024/12/29/evt_1735459200.json"
        true false
        (fun k => if k < 2 then .gcsError false "timeout" else .success) =
      ⟨some true, [⟨"evt_1735459200", some "2024/12/29/evt_1735459200.json",
        "uploaded", none⟩], 3, 2⟩ := by
  have h := (C3_upload_failure_classification 3 "evt_1735459200" "s.json"
    "2024/12/29/evt_1735459200.json"
    (fun k => if k < 2 then .gcsError false "timeout" else .success)
    (fun _ => false) (fun _ => "timeout")).2.2.2 2 (by omega)
    (fun k hk => by simp [hk]) (by simp)
  exact h

/-! ## `src/lifecycle/clip_cleanup.py` — retention sweep

`get_expired_clips` selects `event_id, clip_path, created_at` for rows with
`created_at < cutoff AND clip_path IS NOT NULL` (the SQL `ORDER BY
created_at` only permutes the result; rows are kept in store order here,
and every property proved is order-independent).  The filesystem is the
list of existing file paths; `clip_path.exists()` is membership,
`clip_path.unlink()` removes one occurrence. -/

/-- The columns of `events` that the sweep reads and writes. -/
structure CRow where
  eventId : String
  clipPath : Option String
  createdAt : ℚ
deriving DecidableEq, Repr

/-- `ClipCleanup.get_expired_clips`: the expired-clip query. -/
def getExpiredClips (db : List CRow) (cutoff : ℚ) : List (String × String × ℚ) :=
  db.filterMap (fun r =>
    match r.clipPath with
    | some p => if r.createdAt < cutoff then some (r.eventId, p, r.createdAt) else none
    | none => none)

/-- `UPDATE events SET clip_path = NULL WHERE event_id = ?`. -/
def clearClipPath (db : List CRow) (eid : String) : List CRow :=
  db.map (fun r => if r.eventId = eid then { r with clipPath := none } else r)

/-- The four counters `cleanup` returns (`duration_sec` is wall-clock and
not modelled). -/
structure CleanupStats where
  deletedCount : ℕ
  freedBytes : ℕ
  skippedCount : ℕ
  wouldDeleteCount : ℕ
deriving DecidableEq, Repr

/-- Result of a sweep: counters, the event store, the filesystem. -/
structure CleanupOut where
  stats : CleanupStats
  db : List CRow
  fs : List String
deriving DecidableEq, Repr

/-- The `for record in expired_clips` loop of `ClipCleanup.cleanup`:
missing file ⇒ `skipped_count += 1; continue` (note: NO store update);
existing file ⇒ in dry run only `would_delete_count += 1`, otherwise delete
the file, count it, accumulate its size, and clear the row's `clip_path`. -/
def cleanupLoop (size : String → ℕ) (dryRun : Bool) :
    List (String × String × ℚ) → List CRow → List String → CleanupStats → CleanupOut
  | [], db, fs, st => ⟨st, db, fs⟩
  | (eid, p, _) :: rest, db, fs, st =>
    if p ∈ fs then
      if dryRun then
        cleanupLoop size dryRun rest db fs
          { st with wouldDeleteCount := st.wouldDeleteCount + 1 }
      else
        cleanupLoop size dryRun rest (clearClipPath db eid) (fs.erase p)
          { st with deletedCount := st.deletedCount + 1,
                    freedBytes := st.freedBytes + size p }
    else
      cleanupLoop size dryRun rest db fs
        { st with skippedCount := st.skippedCount + 1 }

/-- `ClipCleanup.cleanup(dry_run)`: run the loop over the expired query
with all counters zero. -/
def cleanup (db : List CRow) (cutoff : ℚ) (fs : List String) (size : String → ℕ)
    (dryRun : Bool) : CleanupOut :=
  cleanupLoop size dryRun (getExpiredClips db cutoff) db fs ⟨0, 0, 0, 0⟩

/-- The store update the loop would make for one row, as a fold step:
clear the row's `clip_path` exactly when its file exists. -/
def clearStep (fs : List String) (d : List CRow) (x : String × String × ℚ) : List CRow :=
  if x.2.1 ∈ fs then clearClipPath d x.1 else d

/-- For rows whose paths all test the same in `fs'` and `fs`, the two folds
agree. -/
theorem foldl_clearStep_congr (fs fs' : List String) :
    ∀ (rows : List (String × String × ℚ)) (d : List CRow),
      (∀ x ∈ rows, (x.2.1 ∈ fs') ↔ (x.2.1 ∈ fs)) →
      rows.foldl (clearStep fs') d = rows.foldl (clearStep fs) d := by
  intro rows
  induction rows with
  | nil => intro d _; rfl
  | cons x rest ih =>
    intro d hiff
    simp only [List.foldl_cons]
    have hx := hiff x (by simp)
    have hstep : clearStep fs' d x = clearStep fs d x := by
      simp only [clearStep]
      by_cases h : x.2.1 ∈ fs
      · rw [if_pos (hx.mpr h), if_pos h]
      · rw [if_neg (fun hc => h (hx.mp hc)), if_neg h]
    rw [hstep]
    exact ih (clearStep fs d x) (fun y hy => hiff y (by simp [hy]))

/-- With pairwise-distinct clip paths, deleting earlier rows' files never
changes a later row's existence test, so the store after a non-dry-run loop
is the fold of `clearStep` against the initial filesystem. -/
theorem cleanupLoop_db_eq (size : String → ℕ) :
    ∀ (rows : List (String × String × ℚ)) (db : List CRow) (fs : List String)
      (st : CleanupStats),
      (rows.map (fun x => x.2.1)).Nodup →
      (cleanupLoop size false rows db fs st).db = rows.foldl (clearStep fs) db := by
  intro rows
  induction rows with
  | nil => intro db fs st _; rfl
  | cons x rest ih =>
    intro db fs st hnd
    obtain ⟨eid, p, c⟩ := x
    simp only [List.map_cons, List.nodup_cons] at hnd
    obtain ⟨hp, hrest⟩ := hnd
    by_cases hmem : p ∈ fs
    · have hun : cleanupLoop size false ((eid, p, c) :: rest) db fs st =
          cleanupLoop size false rest (clearClipPath db eid) (fs.erase p)
            { st with deletedCount := st.deletedCount + 1,
                      freedBytes := st.freedBytes + size p } := by
        simp [cleanupLoop, hmem]
      rw [hun, ih _ _ _ hrest]
      have hcong := foldl_clearStep_congr fs (fs.erase p) rest (clearClipPath db eid)
        (fun y hy => by
          have hne : y.2.1 ≠ p := by
            intro hc
            exact hp (by simpa [hc] using List.mem_map_of_mem (fun z => z.2.1) hy)
          exact List.mem_erase_of_ne hne)
      rw [hcong]
      simp [List.foldl_cons, clearStep, hmem]
    · have hun : cleanupLoop size false ((eid, p, c) :: rest) db fs st =
          cleanupLoop size false rest db fs
            { st with skippedCount := st.skippedCount + 1 } := by
        simp [cleanupLoop, hmem]
      rw [hun, ih _ _ _ hrest]
      simp [List.foldl_cons, clearStep, hmem]

/-- `clearClipPath` preserves "every row with this id is already cleared". -/
theorem clearClipPath_preserves (d : List CRow) (e eid : String)
    (h : ∀ r ∈ d, r.eventId = eid → r.clipPath = none) :
    ∀ r ∈ clearClipPath d e, r.eventId = eid → r.clipPath = none := by
  intro r hr hid
  simp only [clearClipPath, List.mem_map] at hr
  obtain ⟨r0, hr0, heq⟩ := hr
  by_cases he : r0.eventId = e
  · rw [← heq]; simp [he]
  · rw [← heq] at hid ⊢
    simp only [if_neg he] at hid ⊢
    exact h r0 hr0 hid

/-- Once some fold step clears an id, every later store still has every row
of that id cleared. -/
theorem foldl_clearStep_clears (fs : List String) (eid : String) :
    ∀ (rows : List (String × String × ℚ)) (d : List CRow),
      ((∃ x ∈ rows, x.1 = eid ∧ x.2.1 ∈ fs) ∨
        (∀ r ∈ d, r.eventId = eid → r.clipPath = none)) →
      ∀ r ∈ rows.foldl (clearStep fs) d, r.eventId = eid → r.clipPath = none := by
  intro rows
  induction rows with
  | nil =>
    intro d hd r hr hid
    rcases hd with ⟨x, hx, _⟩ | hall
    · exact absurd hx (List.not_mem_nil x)
    · exact hall r hr hid
  | cons x rest ih =>
    intro d hd
    simp only [List.foldl_cons]
    apply ih
    rcases hd with ⟨y, hy, hyid, hyfs⟩ | hall
    · rcases List.mem_cons.mp hy with rfl | hyrest
      · right
        simp only [clearStep, if_pos hyfs]
        intro r hr hid
        simp only [clearClipPath, List.mem_map] at hr
        obtain ⟨r0, _, heq⟩ := hr
        rw [← heq] at hid ⊢
        by_cases he : r0.eventId = y.1
        · simp [he]
        · simp only [if_neg he] at hid
          exact absurd (hid.trans hyid.symm) he
      · exact Or.inl ⟨y, hyrest, hyid, hyfs⟩
    · right
      simp only [clearStep]
      by_cases hx : x.2.1 ∈ fs
      · rw [if_pos hx]
        exact clearClipPath_preserves d x.1 eid hall
      · rw [if_neg hx]
        exact hall

/-- A row none of whose query entries would be deleted passes through the
fold unchanged (in particular its `clip_path` is kept). -/
theorem foldl_clearStep_keeps (fs : List String) :
    ∀ (rows : List (String × String × ℚ)) (d : List CRow) (r : CRow),
      r ∈ d → (∀ x ∈ rows, x.1 ≠ r.eventId ∨ x.2.1 ∉ fs) →
      r ∈ rows.foldl (clearStep fs) d := by
  intro rows
  induction rows with
  | nil => intro d r hr _; exact hr
  | cons x rest ih =>
    intro d r hr hno
    simp only [List.foldl_cons]
    apply ih
    · simp only [clearStep]
      by_cases hx : x.2.1 ∈ fs
      · rw [if_pos hx]
        rcases hno x (by simp) with hne | habs
        · have himg : (if r.eventId = x.1 then { r with clipPath := none } else r) = r :=
            if_neg (fun hc => hne hc.symm)
          have hmm : (if r.eventId = x.1 then { r with clipPath := none } else r) ∈
              clearClipPath d x.1 := List.mem_map_of_mem _ hr
          rwa [himg] at hmm
        · exact absurd hx habs
      · rw [if_neg hx]; exact hr
    · intro y hy
      exact hno y (by simp [hy])

/-- Counter totals of a non-dry-run loop, with pairwise-distinct paths:
deleted = rows whose file exists, freed = sum of their sizes, skipped =
rows whose file is missing; `would_delete_count` untouched. -/
theorem cleanupLoop_stats_eq (size : String → ℕ) :
    ∀ (rows : List (String × String × ℚ)) (db : List CRow) (fs : List String)
      (st : CleanupStats),
      (rows.map (fun x => x.2.1)).Nodup →
      (cleanupLoop size false rows db fs st).stats =
        { deletedCount :=
            st.deletedCount + (rows.filter (fun x => decide (x.2.1 ∈ fs))).length,
          freedBytes :=
            st.freedBytes +
              ((rows.filter (fun x => decide (x.2.1 ∈ fs))).map (fun x => size x.2.1)).sum,
          skippedCount :=
            st.skippedCount + (rows.filter (fun x => decide (x.2.1 ∉ fs))).length,
          wouldDeleteCount := st.wouldDeleteCount } := by
  intro rows
  induction rows with
  | nil =>
    intro db fs st _
    simp [cleanupLoop]
  | cons x rest ih =>
    intro db fs st hnd
    obtain ⟨eid, p, c⟩ := x
    simp only [List.map_cons, List.nodup_cons] at hnd
    obtain ⟨hp, hrest⟩ := hnd
    have hfcong : rest.filter (fun x => decide (x.2.1 ∈ fs.erase p)) =
        rest.filter (fun x => decide (x.2.1 ∈ fs)) := by
      apply List.filter_congr
      intro y hy
      have hne : y.2.1 ≠ p := by
        intro hc
        exact hp (by simpa [hc] using List.mem_map_of_mem (fun z => z.2.1) hy)
      simp [List.mem_erase_of_ne hne]
    have hfcong2 : rest.filter (fun x => decide (x.2.1 ∉ fs.erase p)) =
        rest.filter (fun x => decide (x.2.1 ∉ fs)) := by
      apply List.filter_congr
      intro y hy
      have hne : y.2.1 ≠ p := by
        intro hc
        exact hp (by simpa [hc] using List.mem_map_of_mem (fun z => z.2.1) hy)
      simp [List.mem_erase_of_ne hne]
    by_cases hmem : p ∈ fs
    · have hun : cleanupLoop size false ((eid, p, c) :: rest) db fs st =
          cleanupLoop size false rest (clearClipPath db eid) (fs.erase p)
            { st with deletedCount := st.deletedCount + 1,
                      freedBytes := st.freedBytes + size p } := by
        simp [cleanupLoop, hmem]
      rw [hun, ih _ _ _ hrest]
      simp only [hfcong, hfcong2]
      simp [List.filter_cons, hmem, CleanupStats.mk.injEq]
      try omega
    · have hun : cleanupLoop size false ((eid, p, c) :: rest) db fs st =
          cleanupLoop size false rest db fs
            { st with skippedCount := st.skippedCount + 1 } := by
        simp [cleanupLoop, hmem]
      rw [hun, ih _ _ _ hrest]
      simp [List.filter_cons, hmem, CleanupStats.mk.injEq]
      try omega

/-! ### C5 — retention tick and expired rows (missing-file part fails) -/

/-- Counterexample to C5.  A non-dry-run pass over one expired row whose
clip file is missing counts it as skipped but leaves its `clip_path` set:
the `continue` in the missing-file branch skips the store update, so the
row is NOT cleared, contradicting "either way clear_clip_path". -/
theorem C5_missing_file_not_cleared_cex :
    getExpiredClips [⟨"evt_a", some "a.mp4", 0⟩] 100 = [("evt_a", "a.mp4", 0)] ∧
    (cleanup [⟨"evt_a", some "a.mp4", 0⟩] 100 [] (fun _ => 7) false).db =
      [⟨"evt_a", some "a.mp4", 0⟩] ∧
    (cleanup [⟨"evt_a", some "a.mp4", 0⟩] 100 [] (fun _ => 7) false).stats.skippedCount
      = 1 := by
  refine ⟨by decide, by decide, by decide⟩

/-- C5 amended.  In a non-dry-run pass (with pairwise-distinct clip paths in
the expired query), the store becomes the fold that clears `clip_path`
exactly for rows whose file exists: every queried row whose file exists is
deleted, its size accumulated, and its row cleared; every queried row whose
file is missing is counted as skipped and its row — like every row no query
entry deletes — passes through unchanged, `clip_path` intact. -/
theorem C5_retention_clears_only_existing (db : List CRow) (cutoff : ℚ)
    (fs : List String) (size : String → ℕ)
    (hnd : ((getExpiredClips db cutoff).map (fun x => x.2.1)).Nodup) :
    ((cleanup db cutoff fs size false).db =
      (getExpiredClips db cutoff).foldl (clearStep fs) db) ∧
    (∀ eid p c, (eid, p, c) ∈ getExpiredClips db cutoff → p ∈ fs →
      ∀ r ∈ (cleanup db cutoff fs size false).db,
        r.eventId = eid → r.clipPath = none) ∧
    (∀ r ∈ db, (∀ x ∈ getExpiredClips db cutoff, x.1 ≠ r.eventId ∨ x.2.1 ∉ fs) →
      r ∈ (cleanup db cutoff fs size false).db) ∧
    ((cleanup db cutoff fs size false).stats.skippedCount =
      ((getExpiredClips db cutoff).filter (fun x => decide (x.2.1 ∉ fs))).length) ∧
    ((cleanup db cutoff fs size false).stats.deletedCount =
      ((getExpiredClips db cutoff).filter (fun x => decide (x.2.1 ∈ fs))).length) ∧
    ((cleanup db cutoff fs size false).stats.freedBytes =
      (((getExpiredClips db cutoff).filter (fun x => decide (x.2.1 ∈ fs))).map
        (fun x => size x.2.1)).sum) := by
  have hdb : (cleanup db cutoff fs size false).db =
      (getExpiredClips db cutoff).foldl (clearStep fs) db :=
    cleanupLoop_db_eq size (getExpiredClips db cutoff) db fs ⟨0, 0, 0, 0⟩ hnd
  have hst : (cleanup db cutoff fs size false).stats =
      { deletedCount :=
          0 + ((getExpiredClips db cutoff).filter (fun x => decide (x.2.1 ∈ fs))).length,
        freedBytes :=
          0 + (((getExpiredClips db cutoff).filter (fun x => decide (x.2.1 ∈ fs))).map
            (fun x => size x.2.1)).sum,
        skippedCount :=
          0 + ((getExpiredClips db cutoff).filter (fun x => decide (x.2.1 ∉ fs))).length,
        wouldDeleteCount := 0 } :=
    cleanupLoop_stats_eq size (getExpiredClips db cutoff) db fs ⟨0, 0, 0, 0⟩ hnd
  refine ⟨hdb, ?_, ?_, ?_, ?_, ?_⟩
  · intro eid p c hx hp r hr hid
    rw [hdb] at hr
    exact foldl_clearStep_clears fs eid (getExpiredClips db cutoff) db
      (Or.inl ⟨(eid, p, c), hx, rfl, hp⟩) r hr hid
  · intro r hr hno
    rw [hdb]
    exact foldl_clearStep_keeps fs (getExpiredClips db cutoff) db r hr hno
  · rw [hst]; simp
  · rw [hst]; simp
  · rw [hst]; simp

/-- Witness for C5 amended: two expired rows, one file present and one
missing — the present one is cleared and counted, the missing one is
skipped with its `clip_path` intact. -/
theorem C5_retention_clears_only_existing_witness :
    (cleanup [⟨"evt_a", some "a.mp4", 0⟩, ⟨"evt_b", some "b.mp4", 0⟩] 100
        ["a.mp4"] (fun _ => 5) false).db =
      [⟨"evt_a", none, 0⟩, ⟨"evt_b", some "b.mp4", 0⟩] ∧
    (cleanup [⟨"evt_a", some "a.mp4", 0⟩, ⟨"evt_b", some "b.mp4", 0⟩] 100
        ["a.mp4"] (fun _ => 5) false).stats.skippedCount = 1 ∧
    (cleanup [⟨"evt_a", some "a.mp4", 0⟩, ⟨"evt_b", some "b.mp4", 0⟩] 100
        ["a.mp4"] (fun _ => 5) false).stats.deletedCount = 1 ∧
    (cleanup [⟨"evt_a", some "a.mp4", 0⟩, ⟨"evt_b", some "b.mp4", 0⟩] 100
        ["a.mp4"] (fun _ => 5) false).stats.freedBytes = 5 := by
  have h := C5_retention_clears_only_existing
    [⟨"evt_a", some "a.mp4", 0⟩, ⟨"evt_b", some "b.mp4", 0⟩] 100
    ["a.mp4"] (fun _ => 5) (by decide)
  refine ⟨h.1.trans (by decide), ?_, ?_, ?_⟩
  · rw [h.2.2.2.1]; decide
  · rw [h.2.2.2.2.1]; decide
  · rw [h.2.2.2.2.2]; decide

/-! ## `src/detection/skeleton.py` + `src/analysis/pose_rule_engine.py`

Keypoints are `(x, y, visibility)` triples over `ℝ`; COCO indices 5, 6, 11,
12 are the shoulders and hips.  `np.arctan2` is only ever applied to the two
absolute values `|dx|, |dy| ≥ 0`, so it is embedded on that quadrant.
`PoseRuleEngine` is modelled in its default `enable_smoothing = False`
configuration, where the smoother branch is the identity. -/

/-- `Skeleton` dataclass: 17 keypoints, each `(x, y, visibility)`. -/
structure Skeleton where
  keypoints : Fin 17 → ℝ × ℝ × ℝ

/-- `Keypoint.LEFT_SHOULDER = 5`. -/
noncomputable def Skeleton.leftShoulder (s : Skeleton) : ℝ × ℝ × ℝ := s.keypoints 5

/-- `Keypoint.RIGHT_SHOULDER = 6`. -/
noncomputable def Skeleton.rightShoulder (s : Skeleton) : ℝ × ℝ × ℝ := s.keypoints 6

/-- `Keypoint.LEFT_HIP = 11`. -/
noncomputable def Skeleton.leftHip (s : Skeleton) : ℝ × ℝ × ℝ := s.keypoints 11

/-- `Keypoint.RIGHT_HIP = 12`. -/
noncomputable def Skeleton.rightHip (s : Skeleton) : ℝ × ℝ × ℝ := s.keypoints 12

/-- `Skeleton.shoulder_center`. -/
noncomputable def Skeleton.shoulderCenter (s : Skeleton) : ℝ × ℝ :=
  ((s.leftShoulder.1 + s.rightShoulder.1) / 2,
   (s.leftShoulder.2.1 + s.rightShoulder.2.1) / 2)

/-- `Skeleton.hip_center`. -/
noncomputable def Skeleton.hipCenter (s : Skeleton) : ℝ × ℝ :=
  ((s.leftHip.1 + s.rightHip.1) / 2, (s.leftHip.2.1 + s.rightHip.2.1) / 2)

/-- `np.arctan2 y x` restricted to `y, x ≥ 0` (its only use here):
`arctan (y/x)` for `x > 0`, `π/2` for `x = 0 < y`, and `0` at the origin. -/
noncomputable def atan2nn (y x : ℝ) : ℝ :=
  if x = 0 then (if y = 0 then 0 else Real.pi / 2) else Real.arctan (y / x)

/-- `Skeleton.torso_angle`:
`degrees(arctan2(|dx|, |dy|))` for the shoulder-center − hip-center vector. -/
noncomputable def Skeleton.torsoAngle (s : Skeleton) : ℝ :=
  atan2nn |s.shoulderCenter.1 - s.hipCenter.1| |s.shoulderCenter.2 - s.hipCenter.2|
    * 180 / Real.pi

/-- `PoseRuleEngine` parameters (defaults 60.0 and 0.3). -/
structure PoseRuleEngine where
  torsoAngleThreshold : ℝ
  minVisibility : ℝ

/-- `PoseRuleEngine.get_fall_confidence` (smoothing disabled): 0 for a null
skeleton or insufficient shoulder/hip visibility, else the piecewise map of
`torso_angle`: 0 below 30, `(a-30)/60` on `[30,60)`, and
`0.5 + min((a-60)/60, 0.5)` from 60 on. -/
noncomputable def getFallConfidence (e : PoseRuleEngine) (sk : Option Skeleton) : ℝ :=
  match sk with
  | none => 0
  | some s =>
    if s.leftShoulder.2.2 < e.minVisibility ∨ s.rightShoulder.2.2 < e.minVisibility ∨
        s.leftHip.2.2 < e.minVisibility ∨ s.rightHip.2.2 < e.minVisibility then 0
    else
      if s.torsoAngle < 30 then 0
      else if s.torsoAngle < 60 then (s.torsoAngle - 30) / 60
      else 0.5 + min ((s.torsoAngle - 60) / 60) 0.5

/-- The confidence map the SPEC describes, as a function of the angle:
0 below 30°, linear ramp to 0.5 at 60°, linear ramp reaching 1.0 at 120°,
clamped at 1.0 above 120°. -/
noncomputable def specFallConfidence (a : ℝ) : ℝ :=
  if a < 30 then 0
  else if a ≤ 60 then (a - 30) / 60
  else if a ≤ 120 then 1 / 2 + (a - 60) / 120
  else 1

/-- The confidence map the CODE implements, written as explicit ramps: the
upper ramp reaches 1.0 already at 90° and is clamped there. -/
noncomputable def rampConfidence (a : ℝ) : ℝ :=
  if a < 30 then 0
  else if a ≤ 60 then (a - 30) / 60
  else if a ≤ 90 then 1 / 2 + (a - 60) / 60
  else 1

/-- A fully visible horizontal pose: shoulders at `(0,0)`, hips at `(4,0)`,
every visibility 1. -/
noncomputable def horizSkel : Skeleton :=
  ⟨fun i => if i.val = 11 ∨ i.val = 12 then (4, 0, 1) else (0, 0, 1)⟩

/-- Shoulder and hip triples of the horizontal pose. -/
theorem horizSkel_pts :
    horizSkel.leftShoulder = (0, 0, 1) ∧ horizSkel.rightShoulder = (0, 0, 1) ∧
    horizSkel.leftHip = (4, 0, 1) ∧ horizSkel.rightHip = (4, 0, 1) := by
  refine ⟨?_, ?_, ?_, ?_⟩ <;>
    simp only [horizSkel, Skeleton.leftShoulder, Skeleton.rightShoulder,
      Skeleton.leftHip, Skeleton.rightHip] <;>
    first
      | rw [if_neg (by decide)]
      | rw [if_pos (by decide)]

/-- The horizontal pose has torso angle exactly 90°. -/
theorem horizSkel_torsoAngle : horizSkel.torsoAngle = 90 := by
  obtain ⟨h5, h6, h11, h12⟩ := horizSkel_pts
  have hsc : horizSkel.shoulderCenter = (0, 0) := by
    simp [Skeleton.shoulderCenter, h5, h6]
  have hhc : horizSkel.hipCenter = (4, 0) := by
    simp [Skeleton.hipCenter, h11, h12]
  have habs : |(0 : ℝ) - 4| = 4 := by norm_num [abs_sub_comm]
  simp only [Skeleton.torsoAngle, hsc, hhc, habs, sub_self, abs_zero]
  rw [atan2nn, if_pos rfl, if_neg (by norm_num)]
  have hpi : Real.pi ≠ 0 := Real.pi_ne_zero
  field_simp
  ring

/-! ### C8 — fall-confidence ramp (upper ramp end fails on the code) -/

/-- Counterexample to C8.  At the horizontal pose (torso angle 90°, all
visibilities 1 ≥ 0.3) the code returns `0.5 + min(30/60, 0.5) = 1.0`, while
the claimed ramp reaching 1.0 only at 120° gives 0.75 there: the code's
upper ramp rises at 1/60 per degree and saturates at 90°, not 120°. -/
theorem C8_confidence_ramp_cex :
    horizSkel.torsoAngle = 90 ∧
    getFallConfidence ⟨60, 0.3⟩ (some horizSkel) = 1 ∧
    specFallConfidence 90 = 3 / 4 ∧
    getFallConfidence ⟨60, 0.3⟩ (some horizSkel) ≠
      specFallConfidence horizSkel.torsoAngle := by
  obtain ⟨h5, h6, h11, h12⟩ := horizSkel_pts
  have hcode : getFallConfidence ⟨60, 0.3⟩ (some horizSkel) = 1 := by
    simp only [getFallConfidence, h5, h6, h11, h12, horizSkel_torsoAngle]
    norm_num
  have hspec : specFallConfidence 90 = 3 / 4 := by
    simp only [specFallConfidence]
    norm_num
  refine ⟨horizSkel_torsoAngle, hcode, hspec, ?_⟩
  rw [hcode, horizSkel_torsoAngle, hspec]
  norm_num

/-- C8 amended.  The null and low-visibility cases return 0 as claimed, and
for a fully visible skeleton the confidence equals the piecewise ramp that
is 0 below 30°, rises linearly to 0.5 at 60°, rises linearly to 1.0 at 90°
(not 120°), and is clamped at 1.0 beyond; the ramp value always lies in
`[0, 1]`, and the torso angle itself lies in `[0°, 90°]`, so the clamp binds
exactly at the horizontal pose. -/
theorem C8_pose_confidence (e : PoseRuleEngine) :
    (getFallConfidence e none = 0) ∧
    (∀ s : Skeleton,
      (s.leftShoulder.2.2 < e.minVisibility ∨ s.rightShoulder.2.2 < e.minVisibility ∨
        s.leftHip.2.2 < e.minVisibility ∨ s.rightHip.2.2 < e.minVisibility) →
      getFallConfidence e (some s) = 0) ∧
    (∀ s : Skeleton,
      e.minVisibility ≤ s.leftShoulder.2.2 → e.minVisibility ≤ s.rightShoulder.2.2 →
      e.minVisibility ≤ s.leftHip.2.2 → e.minVisibility ≤ s.rightHip.2.2 →
      getFallConfidence e (some s) = rampConfidence s.torsoAngle) ∧
    (∀ a : ℝ, 0 ≤ rampConfidence a ∧ rampConfidence a ≤ 1) ∧
    (∀ s : Skeleton, 0 ≤ s.torsoAngle ∧ s.torsoAngle ≤ 90) := by
  refine ⟨rfl, ?_, ?_, ?_, ?_⟩
  · intro s hbad
    simp only [getFallConfidence, if_pos hbad]
  · intro s h1 h2 h3 h4
    have hgood : ¬ (s.leftShoulder.2.2 < e.minVisibility ∨
        s.rightShoulder.2.2 < e.minVisibility ∨
        s.leftHip.2.2 < e.minVisibility ∨ s.rightHip.2.2 < e.minVisibility) := by
      push_neg
      exact ⟨h1, h2, h3, h4⟩
    simp only [getFallConfidence, if_neg hgood]
    set a := s.torsoAngle with ha
    by_cases hc1 : a < 30
    · rw [rampConfidence, if_pos hc1, if_pos hc1]
    · by_cases hc2 : a < 60
      · rw [if_neg hc1, if_pos hc2, rampConfidence, if_neg hc1, if_pos (le_of_lt hc2)]
      · rw [if_neg hc1, if_neg hc2]
        push_neg at hc2
        by_cases hc3 : a ≤ 60
        · have h60 : a = 60 := le_antisymm hc3 hc2
          rw [rampConfidence, if_neg hc1, if_pos hc3, h60]
          norm_num
        · push_neg at hc3
          by_cases hc4 : a ≤ 90
          · have hmin : min ((a - 60) / 60) 0.5 = (a - 60) / 60 := by
              apply min_eq_left
              rw [div_le_iff (by norm_num : (0:ℝ) < 60)]
              norm_num
              linarith
            rw [hmin, rampConfidence, if_neg hc1, if_neg (not_le.mpr hc3), if_pos hc4]
            norm_num
          · push_neg at hc4
            have hmin : min ((a - 60) / 60) 0.5 = (0.5 : ℝ) := by
              apply min_eq_right
              rw [le_div_iff (by norm_num : (0:ℝ) < 60)]
              norm_num
              linarith
            rw [hmin, rampConfidence, if_neg hc1, if_neg (not_le.mpr hc3),
              if_neg (not_le.mpr hc4)]
            norm_num
  · intro a
    rw [rampConfidence]
    by_cases hc1 : a < 30
    · rw [if_pos hc1]; norm_num
    · push_neg at hc1
      by_cases hc2 : a ≤ 60
      · rw [if_neg (not_lt.mpr hc1), if_pos hc2]
        constructor
        · apply div_nonneg (by linarith) (by norm_num)
        · rw [div_le_one (by norm_num : (0:ℝ) < 60)]; linarith
      · push_neg at hc2
        by_cases hc3 : a ≤ 90
        · rw [if_neg (not_lt.mpr hc1), if_neg (not_le.mpr hc2), if_pos hc3]
          constructor
          · have : (0:ℝ) ≤ (a - 60) / 60 := div_nonneg (by linarith) (by norm_num)
            linarith
          · have : (a - 60) / 60 ≤ 1 / 2 := by
              rw [div_le_div_iff (by norm_num : (0:ℝ) < 60) (by norm_num : (0:ℝ) < 2)]
              linarith
            linarith
        · rw [if_neg (not_lt.mpr hc1), if_neg (not_le.mpr hc2), if_neg hc3]
          norm_num
  · intro s
    rw [Skeleton.torsoAngle]
    have hpi : (0:ℝ) < Real.pi := Real.pi_pos
    have hr : 0 ≤ atan2nn |s.shoulderCenter.1 - s.hipCenter.1|
          |s.shoulderCenter.2 - s.hipCenter.2| ∧
        atan2nn |s.shoulderCenter.1 - s.hipCenter.1|
          |s.shoulderCenter.2 - s.hipCenter.2| ≤ Real.pi / 2 := by
      rw [atan2nn]
      by_cases hx : |s.shoulderCenter.2 - s.hipCenter.2| = 0
      · rw [if_pos hx]
        by_cases hy : |s.shoulderCenter.1 - s.hipCenter.1| = 0
        · rw [if_pos hy]
          exact ⟨le_refl 0, by positivity⟩
        · rw [if_neg hy]
          exact ⟨by positivity, le_refl _⟩
      · rw [if_neg hx]
        have hq : 0 ≤ |s.shoulderCenter.1 - s.hipCenter.1| /
            |s.shoulderCenter.2 - s.hipCenter.2| :=
          div_nonneg (abs_nonneg _) (abs_nonneg _)
        have h0 : Real.arctan 0 ≤ Real.arctan (|s.shoulderCenter.1 - s.hipCenter.1| /
            |s.shoulderCenter.2 - s.hipCenter.2|) :=
          Real.arctan_strictMono.monotone hq
        rw [Real.arctan_zero] at h0
        exact ⟨h0, le_of_lt (Real.arctan_lt_pi_div_two _)⟩

    constructor
    · apply div_nonneg _ (le_of_lt hpi)
      exact mul_nonneg hr.1 (by norm_num)
    · rw [div_le_iff hpi]
      calc atan2nn |s.shoulderCenter.1 - s.hipCenter.1|
            |s.shoulderCenter.2 - s.hipCenter.2| * 180
          ≤ (Real.pi / 2) * 180 := by
            apply mul_le_mul_of_nonneg_right hr.2 (by norm_num)
        _ = 90 * Real.pi := by ring

/-- Witness for C8 amended at the horizontal pose: full visibility, so the
confidence equals the ramp value of its 90° torso angle, namely 1. -/
theorem C8_pose_confidence_witness :
    getFallConfidence ⟨60, 3 / 10⟩ (some horizSkel) =
      rampConfidence horizSkel.torsoAngle := by
  obtain ⟨h5, h6, h11, h12⟩ := horizSkel_pts
  exact (C8_pose_confidence ⟨60, 3 / 10⟩).2.2.1 horizSkel
    (by rw [h5]; norm_num) (by rw [h6]; norm_num)
    (by rw [h11]; norm_num) (by rw [h12]; norm_num)

end FDS
